import Mathlib

/-!
Shallow embedding of `slowbin.py`, a throttled streaming HTTP pass-through
cache.  Pure values and control flow are translated directly from the source;
external collaborators (Redis, the HTTP client, DNS resolution, wall-clock
time) are modelled as explicit inputs, and the cache mutations the core
performs are recorded as an operation trace.  Wall-clock durations and the
pacing budget (Python floats) are modelled as rationals.

Configuration constants (`config.py`) and the error-message constants
(`messages.py`) are not part of the source tree; per the specification they
are external configuration and an error taxonomy, so they appear here as a
`Config` record and an `ErrMsg` inductive respectively.
-/

namespace Slowbin

/-- Modelled from the spec: configuration constants imported from the
`config` module (not under `src/`); the spec treats them as external
configuration (maximum content length and its human-readable form, fixed
chunk size, maximum allowed rate, default mimetype, cache TTL seconds). -/
structure Config where
  CHUNK_SIZE : Nat
  LENGTH_LIMIT : Nat
  CACHE_TIME : Nat
  RATE_LIMIT : ℚ
  DEFAULT_MIMETYPE : String
  LENGTH_LIMIT_HUMAN : String
  deriving DecidableEq

/-- Modelled from the spec: the error-message constants imported from the
`messages` module (not under `src/`); modelled as distinct tokens following
the spec's error taxonomy (§7).  `contentTooLarge` carries the formatted
human-readable limit, mirroring `ERROR_CONTENT_LENGTH.format(...)`. -/
inductive ErrMsg where
  | badUrl
  | schemeNotSpecified
  | badHostname
  | localUrl
  | contentHeaderMissing
  | contentHeaderNotInteger
  | contentTooLarge (human : String)
  deriving DecidableEq

/-- A mutating Redis operation performed by the core (reads are modelled as
environment inputs). -/
inductive CacheOp where
  | set (key : String) (value : String)
  | append (key : String) (value : List Nat)
  | expire (key : String) (ttl : Nat)
  deriving DecidableEq

/-- Whether a cache operation is an `expire` (TTL set/refresh). -/
def isExpire : CacheOp → Bool
  | CacheOp.expire _ _ => true
  | _ => false

/-- Characters admissible in a URL scheme, from CPython 2.7
`urlparse.scheme_chars`. -/
def schemeChar (c : Char) : Bool :=
  c.isAlpha || c.isDigit || c == '+' || c == '-' || c == '.'

/-- The scheme/netloc part of CPython 2.7 `urlparse.urlsplit`, which
`slowbin.validate_url` (src/slowbin.py:41) calls: split a scheme at the
first `:` when the part before it is made of scheme characters (with the
`http` fast path, and the caveat that a rest made only of digits is a port,
not a scheme), then a netloc after `//` up to the next `/`, `?` or `#`.
`none` models the `ValueError` raised on a mismatched IPv6 bracket, the one
exception this input path can raise. -/
def pyUrlsplit (url : String) : Option (String × String) :=
  let cs := url.toList
  let schemeRest : String × List Char :=
    match cs.findIdx? (fun c => c == ':') with
    | some i =>
      if 0 < i then
        let pre := cs.take i
        let post := cs.drop (i + 1)
        if pre = ['h', 't', 't', 'p'] then
          (String.mk (pre.map Char.toLower), post)
        else if pre.all schemeChar && (post.isEmpty || !post.all Char.isDigit) then
          (String.mk (pre.map Char.toLower), post)
        else ("", cs)
      else ("", cs)
    | none => ("", cs)
  match schemeRest.2 with
  | '/' :: '/' :: r =>
    let netloc := r.takeWhile (fun c => !(c == '/' || c == '?' || c == '#'))
    if (netloc.contains '[' && !netloc.contains ']') ||
        (netloc.contains ']' && !netloc.contains '[') then
      none
    else
      some (schemeRest.1, String.mk netloc)
  | _ => some (schemeRest.1, "")

/-- The `hostname` property of a CPython 2.7 parse result: the part of the
netloc after the last `@`, then the bracketed IPv6 host if present, else the
part before the first `:`, lowercased.  Used only to state claims that speak
of "the authority's hostname" (the source itself never extracts it). -/
def hostnameOf (netloc : String) : String :=
  let cs := netloc.toList
  let t := (cs.reverse.takeWhile (fun c => !(c == '@'))).reverse
  if t.contains '[' && t.contains ']' then
    String.mk (((t.takeWhile (fun c => !(c == ']'))).drop 1).map Char.toLower)
  else if t.contains ':' then
    String.mk ((t.takeWhile (fun c => !(c == ':'))).map Char.toLower)
  else
    String.mk (t.map Char.toLower)

/-- `validate_url` (src/slowbin.py:33-59).  `resolve` models
`socket.gethostbyname`: `none` is a resolution failure, `some ip` the
resolved address.  Result `none` models `(True, '')`, `some e` models
`(False, e)`.  Note the source resolves the whole `o.netloc`, and checks
`netloc` before `scheme`. -/
def validate_url (resolve : String → Option String) (url : String) : Option ErrMsg :=
  match pyUrlsplit url with
  | none => some ErrMsg.badUrl
  | some (scheme, netloc) =>
    if netloc = "" then some ErrMsg.badUrl
    else if scheme = "" then some ErrMsg.schemeNotSpecified
    else
      match resolve netloc with
      | none => some ErrMsg.badHostname
      | some ip => if ip = "127.0.0.1" then some ErrMsg.localUrl else none

/-- CPython 2 `range(0, stop, step)` for a nonnegative stop: the
`ceil(stop / step)` multiples of `step` below `stop`. -/
def pyRangeList (stop step : Nat) : List Nat :=
  List.range' 0 ((stop + step - 1) / step) step

/-- The `chunk_sizes` list built by `cache_iterator` (src/slowbin.py:67-70):
`range(0, length, CHUNK_SIZE)`, with `length` appended only when
`length % CHUNK_SIZE` is nonzero. -/
def chunk_sizes (C L : Nat) : List Nat :=
  let base := pyRangeList L C
  if L % C ≠ 0 then base ++ [L] else base

/-- The byte-range pairs `zip(chunk_sizes, chunk_sizes[1:])` that
`cache_iterator` reads (src/slowbin.py:72). -/
def cacheRanges (C L : Nat) : List (Nat × Nat) :=
  (chunk_sizes C L).zip (chunk_sizes C L).tail

/-- Redis `GETRANGE key a b`: the bytes from index `a` to index `b`
inclusive, clamped to the stored value. -/
def getrange (content : List Nat) (a b : Nat) : List Nat :=
  (content.drop a).take (b + 1 - a)

/-- `cache_iterator` (src/slowbin.py:62-73): the chunks it yields, given the
blob stored under the key.  Each pair `(x, y)` is read as
`redis.getrange(url, x, y - 1)`. -/
def cache_iterator (cfg : Config) (content : List Nat) (length : Int) : List (List Nat) :=
  (cacheRanges cfg.CHUNK_SIZE length.toNat).map (fun p => getrange content p.1 (p.2 - 1))

/-- What the per-unit loop of `stream` does after the sleep decision:
either the size-guard `return` (src/slowbin.py:116-117) or a transition to
the next unit, possibly after a sleep (src/slowbin.py:121-122). -/
inductive StepAction where
  | halt
  | next (s : Option ℚ)
  deriving DecidableEq

/-- The sleep performed by a step action, if any. -/
def stepSleep : StepAction → Option ℚ
  | StepAction.halt => none
  | StepAction.next s => s

/-- The per-unit bookkeeping state of `stream` after one loop iteration. -/
structure StepResult where
  chunks : Int
  rate : ℚ
  totalSize : Nat
  action : StepAction
  deriving DecidableEq

/-- One iteration of the bookkeeping in the `stream` loop
(src/slowbin.py:112-122), entered right after a unit has been emitted:
decrement `chunks`, subtract the elapsed time `d` from `rate`, add
`CHUNK_SIZE` to `total_size`; then `return` if `total_size > LENGTH_LIMIT`,
else sleep `rate / chunks` exactly when `rate > 0 and chunks > 0`. -/
def streamStep (cfg : Config) (ctr : Int) (rate : ℚ) (total : Nat) (d : ℚ) : StepResult :=
  let ctr' := ctr - 1
  let rate' := rate - d
  let total' := total + cfg.CHUNK_SIZE
  { chunks := ctr'
    rate := rate'
    totalSize := total'
    action :=
      if cfg.LENGTH_LIMIT < total' then StepAction.halt
      else StepAction.next
        (if 0 < rate' ∧ 0 < ctr' then some (rate' / ((ctr' : Int) : ℚ)) else none) }

/-- Everything observable about one run of the `stream` generator: the
chunks yielded to the caller, the Redis mutations performed, and the sleeps
executed, in order. -/
structure StreamOut where
  yielded : List (List Nat)
  ops : List CacheOp
  sleeps : List ℚ
  deriving DecidableEq

/-- The pair of TTL refreshes the source always performs together
(src/slowbin.py:124-126 and 156-158). -/
def expirePair (cfg : Config) (url : String) : List CacheOp :=
  [CacheOp.expire url cfg.CACHE_TIME, CacheOp.expire (url ++ ":mimetype") cfg.CACHE_TIME]

/-- The loop of `stream` (src/slowbin.py:106-126) over the chunks the
iterator will yield, with `ds` the oracle of wall-clock durations measured
by each iteration's `time() - chunk_start`.  On exhaustion in origin-fetch
mode the TTLs of both records are set; the size-guard `return` skips that. -/
def streamGo (cfg : Config) (url : String) (cached : Bool) :
    List (List Nat) → List ℚ → Int → ℚ → Nat → StreamOut
  | [], _, _, _, _ =>
    { yielded := []
      ops := if cached then [] else expirePair cfg url
      sleeps := [] }
  | c :: cs, ds, ctr, rate, total =>
    match streamStep cfg ctr rate total (ds.headD 0) with
    | ⟨_, _, _, StepAction.halt⟩ =>
      { yielded := [c]
        ops := if cached then [] else [CacheOp.append url c]
        sleeps := [] }
    | ⟨ctr', rate', total', StepAction.next s⟩ =>
      let rest := streamGo cfg url cached cs ds.tail ctr' rate' total'
      { yielded := c :: rest.yielded
        ops := (if cached then [] else [CacheOp.append url c]) ++ rest.ops
        sleeps := s.toList ++ rest.sleeps }

/-- The data source `stream` reads from: the cache (with the stored blob)
or the origin (with the chunks the HTTP client will yield). -/
inductive Source where
  | cache (content : List Nat)
  | origin (chunks : List (List Nat))

/-- The `cached` flag `stream` receives for each source. -/
def Source.isCached : Source → Bool
  | Source.cache _ => true
  | Source.origin _ => false

/-- The chunk sequence the selected iterator yields
(src/slowbin.py:101-104): `cache_iterator` for the cache,
`requests_iterator` (src/slowbin.py:76-85, which drops falsy/empty chunks)
for the origin. -/
def sourceChunks (cfg : Config) (length : Int) : Source → List (List Nat)
  | Source.cache content => cache_iterator cfg content length
  | Source.origin cs => cs.filter (fun c => !c.isEmpty)

/-- `stream` (src/slowbin.py:88-126): initial unit count is the Python 2
floor division `length / CHUNK_SIZE`, `total_size` starts at 0, and the loop
runs over the selected iterator's chunks. -/
def stream (cfg : Config) (url : String) (length : Int) (rate : ℚ)
    (src : Source) (ds : List ℚ) : StreamOut :=
  streamGo cfg url src.isCached (sourceChunks cfg length src) ds
    (Int.fdiv length (cfg.CHUNK_SIZE : Int)) rate 0

/-- Leading and trailing whitespace removed, as Python's `str.strip()`
does before `int` parses a string. -/
def pyStrip (cs : List Char) : List Char :=
  ((cs.dropWhile Char.isWhitespace).reverse.dropWhile Char.isWhitespace).reverse

/-- Python 2 `int(s)` on a string: strip whitespace, optional sign, a
nonempty digit run; `none` models `ValueError`. -/
def pyInt? (s : String) : Option Int :=
  let t := pyStrip s.toList
  let signDigits : Int × List Char :=
    match t with
    | '-' :: r => (-1, r)
    | '+' :: r => (1, r)
    | r => (1, r)
  let ds := signDigits.2
  if !ds.isEmpty && ds.all Char.isDigit then
    some (signDigits.1 * Int.ofNat (ds.foldl (fun a c => a * 10 + (c.toNat - '0'.toNat)) 0))
  else none

/-- The origin's HEAD response (src/slowbin.py:175-182): `requests.head`
status, `content-type` and `content-length` headers as the source reads
them. -/
structure HeadResponse where
  ok : Bool
  status : Nat
  contentType : Option String
  contentLength : Option String

/-- What `fetch` reads from Redis: whether the key exists, the stored
mimetype record, and the stored blob (whose length `strlen` reports). -/
structure CacheView where
  hit : Bool
  mimetype : Option String
  content : List Nat

/-- The external world one `fetch` request observes: the cache state, the
resolver, the HEAD response, the origin body chunks, the elapsed time
`time() - start` at the rate subtraction, and the per-unit durations for
`stream`. -/
structure FetchEnv where
  cache : CacheView
  resolve : String → Option String
  head : HeadResponse
  originChunks : List (List Nat)
  elapsed : ℚ
  ds : List ℚ

/-- The outcome of `fetch`: a streamed response with a mimetype, an
`abort(400, message)`, or an `abort(head.status_code)`. -/
inductive FetchOutcome where
  | ok (mimetype : Option String) (out : StreamOut)
  | clientError (msg : ErrMsg)
  | originError (status : Nat)
  deriving DecidableEq

/-- `fetch` (src/slowbin.py:142-201): clamp the rate to `RATE_LIMIT`; on a
cache hit refresh both TTLs, read mimetype and length, deduct elapsed time
and stream from the cache; on a miss validate the URL, HEAD the origin,
check the `content-length` header (missing/empty, non-integer, above
`LENGTH_LIMIT`), persist the mimetype, deduct elapsed time and stream from
the origin.  Returns the outcome and the trace of Redis mutations. -/
def fetch (cfg : Config) (rate0 : ℚ) (url : String) (env : FetchEnv) :
    FetchOutcome × List CacheOp :=
  let rate1 := if cfg.RATE_LIMIT < rate0 then cfg.RATE_LIMIT else rate0
  if env.cache.hit then
    let length : Int := (env.cache.content.length : Int)
    let rate2 := rate1 - env.elapsed
    let out := stream cfg url length rate2 (Source.cache env.cache.content) env.ds
    (FetchOutcome.ok env.cache.mimetype out, expirePair cfg url ++ out.ops)
  else
    match validate_url env.resolve url with
    | some e => (FetchOutcome.clientError e, [])
    | none =>
      if env.head.ok then
        let mimetype := env.head.contentType.getD cfg.DEFAULT_MIMETYPE
        match env.head.contentLength with
        | none => (FetchOutcome.clientError ErrMsg.contentHeaderMissing, [])
        | some lenStr =>
          if lenStr = "" then (FetchOutcome.clientError ErrMsg.contentHeaderMissing, [])
          else
            match pyInt? lenStr with
            | none => (FetchOutcome.clientError ErrMsg.contentHeaderNotInteger, [])
            | some n =>
              if (cfg.LENGTH_LIMIT : Int) < n then
                (FetchOutcome.clientError (ErrMsg.contentTooLarge cfg.LENGTH_LIMIT_HUMAN), [])
              else
                let rate2 := rate1 - env.elapsed
                let out := stream cfg url n rate2 (Source.origin env.originChunks) env.ds
                (FetchOutcome.ok (some mimetype) out,
                  CacheOp.set (url ++ ":mimetype") mimetype :: out.ops)
      else
        (FetchOutcome.originError env.head.status, [])

/-! ### Concrete instances used to evaluate the model -/

/-- A sample configuration with realistic proportions: 4096-byte chunks and
an 8192-byte content limit. -/
def cfgA : Config :=
  { CHUNK_SIZE := 4096, LENGTH_LIMIT := 8192, CACHE_TIME := 60, RATE_LIMIT := 60,
    DEFAULT_MIMETYPE := "application/octet-stream", LENGTH_LIMIT_HUMAN := "8 KB" }

/-- A small configuration (4-byte chunks, 100-byte limit) for byte-exact
round-trip evaluation. -/
def cfgB : Config :=
  { CHUNK_SIZE := 4, LENGTH_LIMIT := 100, CACHE_TIME := 30, RATE_LIMIT := 10,
    DEFAULT_MIMETYPE := "application/octet-stream", LENGTH_LIMIT_HUMAN := "100 bytes" }

/-- A resolver under which no hostname resolves. -/
def resolveNone : String → Option String := fun _ => none

/-- A resolver that resolves exactly the hostname `example.com` to a
non-loopback address. -/
def resolveExample : String → Option String :=
  fun h => if h = "example.com" then some "93.184.216.34" else none

/-- A resolver that resolves exactly the hostname `ok.example` to a
non-loopback address. -/
def resolveOk : String → Option String :=
  fun h => if h = "ok.example" then some "1.2.3.4" else none

/-- A successful HEAD response carrying no `content-length` header. -/
def headMissing : HeadResponse :=
  { ok := true, status := 200, contentType := some "text/plain", contentLength := none }

/-- A successful HEAD response with a non-integer `content-length`. -/
def headBadInt : HeadResponse :=
  { ok := true, status := 200, contentType := none, contentLength := some "12x" }

/-- A successful HEAD response whose `content-length` exceeds
`cfgA.LENGTH_LIMIT = 8192`. -/
def headTooBig : HeadResponse :=
  { ok := true, status := 200, contentType := some "text/plain", contentLength := some "9000" }

/-- A cache-miss environment around a given HEAD response. -/
def envOf (h : HeadResponse) : FetchEnv :=
  { cache := { hit := false, mimetype := none, content := [] }, resolve := resolveOk,
    head := h, originChunks := [], elapsed := 0, ds := [] }

/-- A cache-hit environment with a three-byte cached blob. -/
def envHit : FetchEnv :=
  { cache := { hit := true, mimetype := some "text/plain", content := [1, 2, 3] },
    resolve := resolveOk, head := headMissing, originChunks := [], elapsed := 0, ds := [] }

/-! ### Unfolding lemmas for the `stream` loop -/

variable {cfg : Config} {url : String} {cached : Bool} {c : List Nat}
variable {cs : List (List Nat)} {ds : List ℚ} {ctr : Int} {rate : ℚ} {total : Nat}

theorem streamGo_nil :
    streamGo cfg url cached [] ds ctr rate total =
      { yielded := [], ops := if cached then [] else expirePair cfg url, sleeps := [] } :=
  rfl

theorem streamGo_cons_halt (h : cfg.LENGTH_LIMIT < total + cfg.CHUNK_SIZE) :
    streamGo cfg url cached (c :: cs) ds ctr rate total =
      { yielded := [c], ops := if cached then [] else [CacheOp.append url c],
        sleeps := [] } := by
  simp only [streamGo, streamStep]
  rw [if_pos h]

theorem streamGo_cons_next (h : ¬ cfg.LENGTH_LIMIT < total + cfg.CHUNK_SIZE) :
    streamGo cfg url cached (c :: cs) ds ctr rate total =
      { yielded := c :: (streamGo cfg url cached cs ds.tail (ctr - 1) (rate - ds.headD 0)
          (total + cfg.CHUNK_SIZE)).yielded
        ops := (if cached then [] else [CacheOp.append url c]) ++
          (streamGo cfg url cached cs ds.tail (ctr - 1) (rate - ds.headD 0)
            (total + cfg.CHUNK_SIZE)).ops
        sleeps := (if 0 < rate - ds.headD 0 ∧ 0 < ctr - 1 then
            some ((rate - ds.headD 0) / ((ctr - 1 : Int) : ℚ)) else none).toList ++
          (streamGo cfg url cached cs ds.tail (ctr - 1) (rate - ds.headD 0)
            (total + cfg.CHUNK_SIZE)).sleeps } := by
  simp only [streamGo, streamStep]
  rw [if_neg h]

theorem streamGo_halt_yielded (h : cfg.LENGTH_LIMIT < total + cfg.CHUNK_SIZE) :
    (streamGo cfg url cached (c :: cs) ds ctr rate total).yielded = [c] := by
  rw [streamGo_cons_halt h]

theorem streamGo_halt_ops (h : cfg.LENGTH_LIMIT < total + cfg.CHUNK_SIZE) :
    (streamGo cfg url cached (c :: cs) ds ctr rate total).ops =
      (if cached then [] else [CacheOp.append url c]) := by
  rw [streamGo_cons_halt h]

theorem streamGo_halt_sleeps (h : cfg.LENGTH_LIMIT < total + cfg.CHUNK_SIZE) :
    (streamGo cfg url cached (c :: cs) ds ctr rate total).sleeps = [] := by
  rw [streamGo_cons_halt h]

theorem streamGo_next_yielded (h : ¬ cfg.LENGTH_LIMIT < total + cfg.CHUNK_SIZE) :
    (streamGo cfg url cached (c :: cs) ds ctr rate total).yielded =
      c :: (streamGo cfg url cached cs ds.tail (ctr - 1) (rate - ds.headD 0)
        (total + cfg.CHUNK_SIZE)).yielded := by
  rw [streamGo_cons_next h]

theorem streamGo_next_ops (h : ¬ cfg.LENGTH_LIMIT < total + cfg.CHUNK_SIZE) :
    (streamGo cfg url cached (c :: cs) ds ctr rate total).ops =
      (if cached then [] else [CacheOp.append url c]) ++
        (streamGo cfg url cached cs ds.tail (ctr - 1) (rate - ds.headD 0)
          (total + cfg.CHUNK_SIZE)).ops := by
  rw [streamGo_cons_next h]

theorem streamGo_next_sleeps (h : ¬ cfg.LENGTH_LIMIT < total + cfg.CHUNK_SIZE) :
    (streamGo cfg url cached (c :: cs) ds ctr rate total).sleeps =
      (if 0 < rate - ds.headD 0 ∧ 0 < ctr - 1 then
        some ((rate - ds.headD 0) / ((ctr - 1 : Int) : ℚ)) else none).toList ++
        (streamGo cfg url cached cs ds.tail (ctr - 1) (rate - ds.headD 0)
          (total + cfg.CHUNK_SIZE)).sleeps := by
  rw [streamGo_cons_next h]

/-- In cache-read mode the loop performs no cache mutation at all. -/
theorem streamGo_cached_ops :
    ∀ (cs : List (List Nat)) (ds : List ℚ) (ctr : Int) (rate : ℚ) (total : Nat),
      (streamGo cfg url true cs ds ctr rate total).ops = []
  | [], _, _, _, _ => rfl
  | c :: cs, ds, ctr, rate, total => by
    by_cases h : cfg.LENGTH_LIMIT < total + cfg.CHUNK_SIZE
    · rw [streamGo_halt_ops h]
      rfl
    · rw [streamGo_next_ops h,
        streamGo_cached_ops cs ds.tail (ctr - 1) (rate - ds.headD 0) (total + cfg.CHUNK_SIZE)]
      rfl

/-- Once the remaining unit counter is at most one it stays nonpositive
after the decrement, so the sleep condition `chunks > 0` never fires. -/
theorem streamGo_sleeps_nil :
    ∀ (cs : List (List Nat)) (ds : List ℚ) (ctr : Int) (rate : ℚ) (total : Nat),
      ctr ≤ 1 → (streamGo cfg url cached cs ds ctr rate total).sleeps = []
  | [], _, _, _, _, _ => rfl
  | c :: cs, ds, ctr, rate, total, hctr => by
    by_cases h : cfg.LENGTH_LIMIT < total + cfg.CHUNK_SIZE
    · rw [streamGo_halt_sleeps h]
    · have h2 : ¬ (0 < rate - ds.headD 0 ∧ 0 < ctr - 1) := by
        rintro ⟨_, h3⟩; omega
      rw [streamGo_next_sleeps h, if_neg h2,
        streamGo_sleeps_nil cs ds.tail (ctr - 1) (rate - ds.headD 0)
          (total + cfg.CHUNK_SIZE) (by omega)]
      rfl

/-- The yielded chunks are an initial segment of the source's chunks: the
loop consumes the iterator left to right and simply stops. -/
theorem streamGo_yielded_take :
    ∀ (cs : List (List Nat)) (ds : List ℚ) (ctr : Int) (rate : ℚ) (total : Nat),
      (streamGo cfg url cached cs ds ctr rate total).yielded =
        cs.take (streamGo cfg url cached cs ds ctr rate total).yielded.length
  | [], _, _, _, _ => rfl
  | c :: cs, ds, ctr, rate, total => by
    by_cases h : cfg.LENGTH_LIMIT < total + cfg.CHUNK_SIZE
    · rw [streamGo_halt_yielded h]
      rfl
    · rw [streamGo_next_yielded h, List.length_cons, List.take_succ_cons]
      exact congrArg (List.cons c)
        (streamGo_yielded_take cs ds.tail (ctr - 1) (rate - ds.headD 0)
          (total + cfg.CHUNK_SIZE))

/-- Unit-count accounting of the size guard: starting from an accumulated
size within the limit, the units emitted can overshoot `LENGTH_LIMIT` by at
most one unit of `CHUNK_SIZE`. -/
theorem streamGo_units_bound :
    ∀ (cs : List (List Nat)) (ds : List ℚ) (ctr : Int) (rate : ℚ) (total : Nat),
      total ≤ cfg.LENGTH_LIMIT →
      (streamGo cfg url cached cs ds ctr rate total).yielded.length * cfg.CHUNK_SIZE + total ≤
        cfg.LENGTH_LIMIT + cfg.CHUNK_SIZE
  | [], _, _, _, total, htot => by
    rw [streamGo_nil]
    simp only [List.length_nil, Nat.zero_mul]
    omega
  | c :: cs, ds, ctr, rate, total, htot => by
    by_cases h : cfg.LENGTH_LIMIT < total + cfg.CHUNK_SIZE
    · rw [streamGo_halt_yielded h]
      simp only [List.length_singleton]
      omega
    · have ih := streamGo_units_bound cs ds.tail (ctr - 1) (rate - ds.headD 0)
        (total + cfg.CHUNK_SIZE) (by omega)
      rw [streamGo_next_yielded h, List.length_cons, Nat.succ_mul]
      linarith

/-- If the guard budget is exhausted strictly inside the chunk list, the run
in origin-fetch mode performs exactly the write-through appends of what it
yielded: the terminal TTL step is skipped. -/
theorem streamGo_guard_ops :
    ∀ (cs : List (List Nat)) (ds : List ℚ) (ctr : Int) (rate : ℚ) (total : Nat),
      total ≤ cfg.LENGTH_LIMIT →
      cfg.LENGTH_LIMIT < total + cs.length * cfg.CHUNK_SIZE →
      (streamGo cfg url false cs ds ctr rate total).ops =
        (streamGo cfg url false cs ds ctr rate total).yielded.map (CacheOp.append url)
  | [], _, _, _, total, h1, h2 => by
    simp only [List.length_nil, Nat.zero_mul, Nat.add_zero] at h2
    exact absurd h2 (by omega)
  | c :: cs, ds, ctr, rate, total, h1, h2 => by
    by_cases h : cfg.LENGTH_LIMIT < total + cfg.CHUNK_SIZE
    · rw [streamGo_halt_ops h, streamGo_halt_yielded h]
      rfl
    · have h2' : cfg.LENGTH_LIMIT < (total + cfg.CHUNK_SIZE) + cs.length * cfg.CHUNK_SIZE := by
        rw [List.length_cons, Nat.succ_mul] at h2
        linarith
      have ih := streamGo_guard_ops cs ds.tail (ctr - 1) (rate - ds.headD 0)
        (total + cfg.CHUNK_SIZE) (by omega) h2'
      rw [streamGo_next_ops h, streamGo_next_yielded h, ih, List.map_cons]
      rfl

/-- If the whole chunk list fits under the guard budget, the origin-mode run
appends everything it yielded and then sets both TTLs. -/
theorem streamGo_complete_ops :
    ∀ (cs : List (List Nat)) (ds : List ℚ) (ctr : Int) (rate : ℚ) (total : Nat),
      total + cs.length * cfg.CHUNK_SIZE ≤ cfg.LENGTH_LIMIT →
      (streamGo cfg url false cs ds ctr rate total).ops =
        (streamGo cfg url false cs ds ctr rate total).yielded.map (CacheOp.append url) ++
          expirePair cfg url
  | [], _, _, _, total, _ => rfl
  | c :: cs, ds, ctr, rate, total, hle => by
    rw [List.length_cons, Nat.succ_mul] at hle
    have hx : total + cfg.CHUNK_SIZE ≤ cfg.LENGTH_LIMIT := by
      linarith [Nat.zero_le (cs.length * cfg.CHUNK_SIZE)]
    have h : ¬ cfg.LENGTH_LIMIT < total + cfg.CHUNK_SIZE := Nat.not_lt.mpr hx
    have ih := streamGo_complete_ops cs ds.tail (ctr - 1) (rate - ds.headD 0)
      (total + cfg.CHUNK_SIZE) (by linarith)
    rw [streamGo_next_ops h, streamGo_next_yielded h, ih, List.map_cons]
    rfl

/-- TTL refreshes in any run of the loop come only as the final pair. -/
theorem streamGo_filter_expire :
    ∀ (cs : List (List Nat)) (ds : List ℚ) (ctr : Int) (rate : ℚ) (total : Nat),
      (streamGo cfg url cached cs ds ctr rate total).ops.filter isExpire = [] ∨
      (streamGo cfg url cached cs ds ctr rate total).ops.filter isExpire = expirePair cfg url
  | [], _, _, _, _ => by
    cases cached
    · exact Or.inr rfl
    · exact Or.inl rfl
  | c :: cs, ds, ctr, rate, total => by
    by_cases h : cfg.LENGTH_LIMIT < total + cfg.CHUNK_SIZE
    · rw [streamGo_halt_ops h]
      cases cached <;> exact Or.inl rfl
    · have ih := streamGo_filter_expire cs ds.tail (ctr - 1) (rate - ds.headD 0)
        (total + cfg.CHUNK_SIZE)
      rw [streamGo_next_ops h, List.filter_append]
      have hl : List.filter isExpire (if cached then [] else [CacheOp.append url c]) = [] := by
        cases cached <;> rfl
      rw [hl, List.nil_append]
      exact ih

/-- A write-through append trace contains no TTL operation. -/
theorem filter_expire_map_append (url : String) : ∀ (l : List (List Nat)),
    (l.map (CacheOp.append url)).filter isExpire = []
  | [] => rfl
  | _ :: l => filter_expire_map_append url l

/-- The TTL pair consists only of `expire` operations. -/
theorem filter_expire_pair : (expirePair cfg url).filter isExpire = expirePair cfg url :=
  rfl

/-- `stream` in cache-read mode performs no cache mutation. -/
theorem stream_cache_ops (content : List Nat) (length : Int) (rate : ℚ) (ds : List ℚ) :
    (stream cfg url length rate (Source.cache content) ds).ops = [] := by
  simp only [stream, Source.isCached]
  exact streamGo_cached_ops _ _ _ _ _

/-- Any `stream` run refreshes either no TTL at all or exactly the pair. -/
theorem stream_filter_expire (length : Int) (rate : ℚ) (src : Source) (ds : List ℚ) :
    (stream cfg url length rate src ds).ops.filter isExpire = [] ∨
    (stream cfg url length rate src ds).ops.filter isExpire = expirePair cfg url := by
  simp only [stream]
  exact streamGo_filter_expire _ _ _ _ _

/-- Every request's operation trace refreshes either no expiry at all or
exactly the content/mimetype pair of the requested key. -/
theorem fetch_filter_expire (cfg : Config) (rate0 : ℚ) (url : String) (env : FetchEnv) :
    (fetch cfg rate0 url env).2.filter isExpire = [] ∨
    (fetch cfg rate0 url env).2.filter isExpire = expirePair cfg url := by
  by_cases hhit : env.cache.hit
  · right
    simp [fetch, hhit, stream_cache_ops, List.filter_append, filter_expire_pair]
  · simp only [fetch]
    rw [if_neg hhit]
    split
    · exact Or.inl rfl
    · split
      · split
        · exact Or.inl rfl
        · split
          · exact Or.inl rfl
          · split
            · exact Or.inl rfl
            · split
              · exact Or.inl rfl
              · exact stream_filter_expire _ _ _ _
      · exact Or.inl rfl

/-! ### Claims -/

/-- C1: the claim asserts the origin-fetch/cache-read round-trip is
byte-identical for every declared length, in particular when the length is
an exact multiple of `CHUNK_SIZE`.  The code violates this at exactly those
lengths: evaluated at declared length 8 with `CHUNK_SIZE = 4`, the
origin-fetch stream yields and writes through all 8 bytes, yet the
subsequent cache-read stream of the same key and the same declared length
yields only the first 4 bytes, because `cache_iterator` appends the final
range boundary only when `length % CHUNK_SIZE` is nonzero. -/
theorem c1_roundtrip_multiple_of_chunk :
    (stream cfgB "u" 8 0 (Source.origin [[0, 1, 2, 3], [4, 5, 6, 7]]) []).yielded.flatten =
      [0, 1, 2, 3, 4, 5, 6, 7] ∧
    (stream cfgB "u" 8 0 (Source.origin [[0, 1, 2, 3], [4, 5, 6, 7]]) []).ops.take 2 =
      [CacheOp.append "u" [0, 1, 2, 3], CacheOp.append "u" [4, 5, 6, 7]] ∧
    (stream cfgB "u" 8 0 (Source.cache [0, 1, 2, 3, 4, 5, 6, 7]) []).yielded.flatten =
      [0, 1, 2, 3] ∧
    (stream cfgB "u" 8 0 (Source.cache [0, 1, 2, 3, 4, 5, 6, 7]) []).yielded.flatten ≠
      [0, 1, 2, 3, 4, 5, 6, 7] := by
  decide

/-- C2: the claim asserts the cache-read producer's ranges exactly cover
`[0, length)` for every positive length.  The cited instance
`length = 10000, CHUNK_SIZE = 4096` does hold, but for lengths that are
exact positive multiples of `CHUNK_SIZE` the final range is missing:
at `length = 8192` only `[0, 4096)` is produced, and at `length = 4096`
no range at all. -/
theorem c2_cache_ranges :
    cacheRanges 4096 10000 = [(0, 4096), (4096, 8192), (8192, 10000)] ∧
    cacheRanges 4096 8192 = [(0, 4096)] ∧
    cacheRanges 4096 4096 = [] := by
  decide

/-- C3: counterexample to the claim that every URL without a scheme gets
`SchemeNotSpecified` regardless of the authority: `example.com` parses with
neither scheme nor authority, and `validate_url` returns `BadUrl` because
the authority check precedes the scheme check (src/slowbin.py:45-49). -/
theorem c3_counterexample :
    pyUrlsplit "example.com" = some ("", "") ∧
    validate_url resolveNone "example.com" = some ErrMsg.badUrl ∧
    ErrMsg.badUrl ≠ ErrMsg.schemeNotSpecified := by
  decide

/-- C3 (amended): for a URL whose parse has no scheme, `validate_url`
returns `SchemeNotSpecified` when the parse has a nonempty authority, and
`BadUrl` when the authority is absent. -/
theorem c3_amended_scheme_check (resolve : String → Option String) (url netloc : String)
    (hp : pyUrlsplit url = some ("", netloc)) :
    validate_url resolve url =
      some (if netloc = "" then ErrMsg.badUrl else ErrMsg.schemeNotSpecified) := by
  simp only [validate_url, hp]
  by_cases hn : netloc = ""
  · rw [if_pos hn, if_pos hn]
  · rw [if_neg hn, if_neg hn, if_pos trivial]

/-- C3 amended-claim witness: `//example.com` parses with an authority but
no scheme and is rejected as `SchemeNotSpecified`. -/
theorem c3_witness :
    validate_url resolveNone "//example.com" = some ErrMsg.schemeNotSpecified := by
  have h := c3_amended_scheme_check resolveNone "//example.com" "example.com" (by decide)
  simpa using h

/-- C4: counterexample to the claim that a URL with scheme and authority
whose hostname resolves to a non-loopback address gets `Ok`, including
authorities with an explicit port: `http://example.com:8080/` has hostname
`example.com`, which this resolver resolves to a non-loopback address, yet
`validate_url` returns `BadHostname`, because the source resolves the whole
netloc `example.com:8080` (src/slowbin.py:52), which does not resolve as a
hostname. -/
theorem c4_counterexample :
    pyUrlsplit "http://example.com:8080/" = some ("http", "example.com:8080") ∧
    hostnameOf "example.com:8080" = "example.com" ∧
    resolveExample (hostnameOf "example.com:8080") = some "93.184.216.34" ∧
    ("93.184.216.34" : String) ≠ "127.0.0.1" ∧
    validate_url resolveExample "http://example.com:8080/" = some ErrMsg.badHostname ∧
    validate_url resolveExample "http://example.com:8080/" ≠ none := by
  decide

/-- C4 (amended): for a URL that parses with both a scheme and a nonempty
authority, `validate_url` resolves the entire authority string (not the
hostname): it returns `Ok` exactly when the whole netloc resolves to an
address other than `127.0.0.1`, and `BadHostname` exactly when resolution
of the whole netloc fails — so an authority with an explicit port is
rejected whenever the combined `host:port` string does not resolve, even if
the hostname alone does. -/
theorem c4_amended_netloc_resolution (resolve : String → Option String)
    (url scheme netloc : String) (hp : pyUrlsplit url = some (scheme, netloc))
    (hn : netloc ≠ "") (hs : scheme ≠ "") :
    (validate_url resolve url = none ↔
      ∃ ip, resolve netloc = some ip ∧ ip ≠ "127.0.0.1") ∧
    (validate_url resolve url = some ErrMsg.badHostname ↔ resolve netloc = none) := by
  simp only [validate_url, hp]
  rw [if_neg hn, if_neg hs]
  cases hres : resolve netloc with
  | none => simp
  | some ip =>
    by_cases hip : ip = "127.0.0.1"
    · simp [hip]
    · simp [hip]

/-- C4 amended-claim witness: `http://ok.example/` has a portless netloc
that resolves to a non-loopback address and is accepted. -/
theorem c4_witness : validate_url resolveOk "http://ok.example/" = none := by
  exact (c4_amended_netloc_resolution resolveOk "http://ok.example/" "http" "ok.example"
    (by decide) (by decide) (by decide)).1.mpr ⟨"1.2.3.4", by decide, by decide⟩

/-- C5: on a cache miss with a successful HEAD response, a missing (or
empty, which Python's truthiness treats the same) `Content-Length` fails
with `ContentHeaderMissing`; a non-integer one with
`ContentHeaderNotInteger`; an integer strictly above `LENGTH_LIMIT` with
`ContentTooLarge` carrying the human-readable limit — and in all three
cases the returned operation trace is empty: nothing was streamed or
written to the cache. -/
theorem c5_header_validation (cfg : Config) (rate0 : ℚ) (url : String) (env : FetchEnv)
    (hmiss : env.cache.hit = false)
    (hvld : validate_url env.resolve url = none)
    (hok : env.head.ok = true) :
    ((env.head.contentLength = none ∨ env.head.contentLength = some "") →
      fetch cfg rate0 url env = (FetchOutcome.clientError ErrMsg.contentHeaderMissing, [])) ∧
    (∀ s, env.head.contentLength = some s → s ≠ "" → pyInt? s = none →
      fetch cfg rate0 url env =
        (FetchOutcome.clientError ErrMsg.contentHeaderNotInteger, [])) ∧
    (∀ s n, env.head.contentLength = some s → pyInt? s = some n →
      (cfg.LENGTH_LIMIT : Int) < n →
      fetch cfg rate0 url env =
        (FetchOutcome.clientError (ErrMsg.contentTooLarge cfg.LENGTH_LIMIT_HUMAN), [])) := by
  refine ⟨?_, ?_, ?_⟩
  · rintro (hcl | hcl) <;> simp [fetch, hmiss, hvld, hok, hcl]
  · intro s hcl hne hparse
    simp [fetch, hmiss, hvld, hok, hcl, hne, hparse]
  · intro s n hcl hparse hlim
    have hne : s ≠ "" := by
      intro he
      rw [he, show pyInt? "" = none from by decide] at hparse
      exact Option.noConfusion hparse
    simp [fetch, hmiss, hvld, hok, hcl, hne, hparse, hlim]

/-- C5 witness: the three failures evaluated on concrete cache-miss
environments. -/
theorem c5_witness :
    fetch cfgA 5 "http://ok.example/" (envOf headMissing) =
      (FetchOutcome.clientError ErrMsg.contentHeaderMissing, []) ∧
    fetch cfgA 5 "http://ok.example/" (envOf headBadInt) =
      (FetchOutcome.clientError ErrMsg.contentHeaderNotInteger, []) ∧
    fetch cfgA 5 "http://ok.example/" (envOf headTooBig) =
      (FetchOutcome.clientError (ErrMsg.contentTooLarge cfgA.LENGTH_LIMIT_HUMAN), []) := by
  refine ⟨?_, ?_, ?_⟩
  · exact (c5_header_validation cfgA 5 "http://ok.example/" (envOf headMissing)
      rfl (by decide) rfl).1 (Or.inl rfl)
  · exact (c5_header_validation cfgA 5 "http://ok.example/" (envOf headBadInt)
      rfl (by decide) rfl).2.1 "12x" rfl (by decide) (by decide)
  · exact (c5_header_validation cfgA 5 "http://ok.example/" (envOf headTooBig)
      rfl (by decide) rfl).2.2 "9000" 9000 rfl (by decide) (by decide)

/-- C6: counterexample to the claim that after every emitted unit a sleep
of (budget / units) occurs if and only if both are strictly positive: at a
step where the size guard fires (accumulated size 8192 + 4096 exceeds
`LENGTH_LIMIT = 8192`), the remaining budget is 100 > 0 and the remaining
unit count is 7 > 0, yet the stream halts with no sleep. -/
theorem c6_counterexample :
    (streamStep cfgA 8 100 8192 0).rate = 100 ∧ (0 : ℚ) < 100 ∧
    (streamStep cfgA 8 100 8192 0).chunks = 7 ∧ (0 : Int) < 7 ∧
    (streamStep cfgA 8 100 8192 0).action = StepAction.halt ∧
    stepSleep (streamStep cfgA 8 100 8192 0).action = none ∧
    ¬(stepSleep (streamStep cfgA 8 100 8192 0).action =
        some ((streamStep cfgA 8 100 8192 0).rate /
          ((streamStep cfgA 8 100 8192 0).chunks : ℚ)) ↔
      0 < (streamStep cfgA 8 100 8192 0).rate ∧
        0 < (streamStep cfgA 8 100 8192 0).chunks) := by
  norm_num [streamStep, stepSleep, cfgA]
  exact fun hcon => Option.noConfusion hcon

/-- C6 (amended): after every emitted unit the unit count is decremented by
one and the elapsed time subtracted from the budget, and — provided the
size guard has not terminated the stream — a sleep of exactly
(remaining budget / remaining unit count) occurs if and only if both are
strictly positive, the next unit otherwise being produced with no sleep. -/
theorem c6_amended_step (cfg : Config) (ctr : Int) (rate : ℚ) (total : Nat) (d : ℚ)
    (h : total + cfg.CHUNK_SIZE ≤ cfg.LENGTH_LIMIT) :
    (streamStep cfg ctr rate total d).chunks = ctr - 1 ∧
    (streamStep cfg ctr rate total d).rate = rate - d ∧
    (streamStep cfg ctr rate total d).totalSize = total + cfg.CHUNK_SIZE ∧
    stepSleep (streamStep cfg ctr rate total d).action =
      (if 0 < rate - d ∧ 0 < ctr - 1 then some ((rate - d) / ((ctr - 1 : Int) : ℚ))
       else none) := by
  refine ⟨rfl, rfl, rfl, ?_⟩
  simp only [streamStep]
  rw [if_neg (Nat.not_lt.mpr h)]
  rfl

/-- C6 amended-claim witness: an in-budget step with positive budget and
unit count sleeps exactly (budget / units). -/
theorem c6_witness :
    (streamStep cfgA 3 10 0 1).chunks = 2 ∧
    (streamStep cfgA 3 10 0 1).rate = 9 ∧
    stepSleep (streamStep cfgA 3 10 0 1).action = some ((9 : ℚ) / 2) := by
  have h := c6_amended_step cfgA 3 10 0 1 (by norm_num [cfgA])
  refine ⟨by rw [h.1]; norm_num, by rw [h.2.1]; norm_num, ?_⟩
  rw [h.2.2.2]
  norm_num

/-- C7: for every source whose chunks are each at most `CHUNK_SIZE` bytes,
the stream yields an initial segment of the source's chunks (it simply
stops, raising nothing), and both the unit accounting and the actual bytes
yielded never exceed `LENGTH_LIMIT` by more than one chunk. -/
theorem c7_size_guard (cfg : Config) (url : String) (length : Int) (rate : ℚ)
    (src : Source) (ds : List ℚ)
    (hchunk : ∀ c ∈ sourceChunks cfg length src, c.length ≤ cfg.CHUNK_SIZE) :
    (stream cfg url length rate src ds).yielded =
      (sourceChunks cfg length src).take (stream cfg url length rate src ds).yielded.length ∧
    (stream cfg url length rate src ds).yielded.length * cfg.CHUNK_SIZE ≤
      cfg.LENGTH_LIMIT + cfg.CHUNK_SIZE ∧
    ((stream cfg url length rate src ds).yielded.map List.length).sum ≤
      cfg.LENGTH_LIMIT + cfg.CHUNK_SIZE := by
  simp only [stream]
  have htake := @streamGo_yielded_take cfg url src.isCached
    (sourceChunks cfg length src) ds (Int.fdiv length (cfg.CHUNK_SIZE : Int)) rate 0
  have hbound := @streamGo_units_bound cfg url src.isCached
    (sourceChunks cfg length src) ds (Int.fdiv length (cfg.CHUNK_SIZE : Int)) rate 0
    (Nat.zero_le _)
  rw [Nat.add_zero] at hbound
  refine ⟨htake, hbound, ?_⟩
  have hmem : ∀ x ∈ ((streamGo cfg url src.isCached (sourceChunks cfg length src) ds
      (Int.fdiv length (cfg.CHUNK_SIZE : Int)) rate 0).yielded.map List.length),
      x ≤ cfg.CHUNK_SIZE := by
    intro x hx
    rcases List.mem_map.mp hx with ⟨cch, hcch, rfl⟩
    exact hchunk cch (List.take_subset _ _ (htake ▸ hcch))
  have hsum := List.sum_le_card_nsmul _ _ hmem
  rw [List.length_map, smul_eq_mul] at hsum
  exact le_trans hsum hbound

/-- C7 witness: a one-chunk origin stream stays within the bound. -/
theorem c7_witness :
    ((stream cfgA "u" 8192 5 (Source.origin [[7]]) []).yielded.map List.length).sum ≤
      cfgA.LENGTH_LIMIT + cfgA.CHUNK_SIZE :=
  (c7_size_guard cfgA "u" 8192 5 (Source.origin [[7]]) [] (by decide)).2.2

/-- C8: TTL pairing invariant — a request's trace either refreshes no
expiry or exactly the pair (content key, mimetype key) with `CACHE_TIME`;
on a cache hit the trace begins with that pair (before anything else); and
an origin-fetch stream that exhausts its source under the size guard sets
exactly that pair. -/
theorem c8_ttl_pairing (cfg : Config) (rate0 : ℚ) (url : String) (env : FetchEnv)
    (length : Int) (rate : ℚ) (cs : List (List Nat)) (ds : List ℚ) :
    ((fetch cfg rate0 url env).2.filter isExpire = [] ∨
      (fetch cfg rate0 url env).2.filter isExpire = expirePair cfg url) ∧
    (env.cache.hit = true → (fetch cfg rate0 url env).2.take 2 = expirePair cfg url) ∧
    ((sourceChunks cfg length (Source.origin cs)).length * cfg.CHUNK_SIZE ≤
        cfg.LENGTH_LIMIT →
      (stream cfg url length rate (Source.origin cs) ds).ops.filter isExpire =
        expirePair cfg url) := by
  refine ⟨fetch_filter_expire cfg rate0 url env, ?_, ?_⟩
  · intro hhit
    simp [fetch, hhit, stream_cache_ops, expirePair]
  · intro hle
    have hc := @streamGo_complete_ops cfg url
      (sourceChunks cfg length (Source.origin cs)) ds
      (Int.fdiv length (cfg.CHUNK_SIZE : Int)) rate 0 (by simpa using hle)
    simp only [stream, Source.isCached]
    rw [hc, List.filter_append, filter_expire_map_append, filter_expire_pair,
      List.nil_append]

/-- C8 witness: the hit path's trace begins with the TTL pair, and a
one-chunk origin stream that completes sets exactly the pair. -/
theorem c8_witness :
    (fetch cfgA 5 "u" envHit).2.take 2 = expirePair cfgA "u" ∧
    (stream cfgA "u" 4096 0 (Source.origin [[9]]) []).ops.filter isExpire =
      expirePair cfgA "u" := by
  refine ⟨(c8_ttl_pairing cfgA 5 "u" envHit 0 0 [] []).2.1 rfl, ?_⟩
  exact (c8_ttl_pairing cfgA 5 "u" envHit 4096 0 [[9]] []).2.2 (by decide)

/-- C9: when the size guard forces early termination of an origin-fetch
stream, the trace is exactly the write-through appends of the yielded
chunks: no expiry is set on either the content record or the mimetype
record. -/
theorem c9_guard_skips_ttl (cfg : Config) (url : String) (length : Int) (rate : ℚ)
    (cs : List (List Nat)) (ds : List ℚ)
    (h : cfg.LENGTH_LIMIT <
      (sourceChunks cfg length (Source.origin cs)).length * cfg.CHUNK_SIZE) :
    (stream cfg url length rate (Source.origin cs) ds).ops =
      (stream cfg url length rate (Source.origin cs) ds).yielded.map
        (CacheOp.append url) ∧
    (∀ op ∈ (stream cfg url length rate (Source.origin cs) ds).ops,
      isExpire op = false) := by
  have hg := @streamGo_guard_ops cfg url
    (sourceChunks cfg length (Source.origin cs)) ds
    (Int.fdiv length (cfg.CHUNK_SIZE : Int)) rate 0 (Nat.zero_le _) (by simpa using h)
  have h1 : (stream cfg url length rate (Source.origin cs) ds).ops =
      (stream cfg url length rate (Source.origin cs) ds).yielded.map
        (CacheOp.append url) := by
    simpa only [stream, Source.isCached] using hg
  refine ⟨h1, ?_⟩
  intro op hop
  rw [h1] at hop
  rcases List.mem_map.mp hop with ⟨x, _, rfl⟩
  rfl

/-- C9 witness: three origin chunks against an 8192-byte limit trip the
guard; the trace is appends only. -/
theorem c9_witness :
    (stream cfgA "u" 4096 0 (Source.origin [[1], [2], [3]]) []).ops =
      (stream cfgA "u" 4096 0 (Source.origin [[1], [2], [3]]) []).yielded.map
        (CacheOp.append "u") :=
  (c9_guard_skips_ttl cfgA "u" 4096 0 [[1], [2], [3]] [] (by decide)).1

/-- C10: for a declared length of at most one chunk, the initial unit count
(Python 2 floor division) is 0 or 1 when the length is nonnegative, and the
stream never sleeps, whatever the time budget, the source, or the number of
chunks the source actually yields. -/
theorem c10_no_sleep_small_length (cfg : Config) (url : String) (length : Int)
    (rate : ℚ) (src : Source) (ds : List ℚ)
    (hC : 0 < cfg.CHUNK_SIZE) (hlen : length ≤ (cfg.CHUNK_SIZE : Int)) :
    (0 ≤ length →
      Int.fdiv length (cfg.CHUNK_SIZE : Int) = 0 ∨
      Int.fdiv length (cfg.CHUNK_SIZE : Int) = 1) ∧
    (stream cfg url length rate src ds).sleeps = [] := by
  have hCpos : (0 : Int) < (cfg.CHUNK_SIZE : Int) := by exact_mod_cast hC
  have hfdiv : Int.fdiv length (cfg.CHUNK_SIZE : Int) ≤ 1 := by
    rw [Int.fdiv_eq_ediv _ (le_of_lt hCpos)]
    calc length / (cfg.CHUNK_SIZE : Int) ≤
        (cfg.CHUNK_SIZE : Int) / (cfg.CHUNK_SIZE : Int) := Int.ediv_le_ediv hCpos hlen
      _ = 1 := Int.ediv_self (ne_of_gt hCpos)
  constructor
  · intro hpos
    have h0 : 0 ≤ Int.fdiv length (cfg.CHUNK_SIZE : Int) :=
      Int.fdiv_nonneg hpos (le_of_lt hCpos)
    omega
  · simp only [stream]
    exact streamGo_sleeps_nil _ _ _ _ _ hfdiv

/-- C10 witness: a one-chunk declared length with a huge budget and an
origin that yields three chunks still never sleeps. -/
theorem c10_witness :
    (stream cfgA "u" 4096 1000 (Source.origin [[1], [2], [3]]) [0, 0, 0]).sleeps = [] :=
  (c10_no_sleep_small_length cfgA "u" 4096 1000 (Source.origin [[1], [2], [3]]) [0, 0, 0]
    (by decide) (by decide)).2

end Slowbin
